import Mathlib

/-!
Verification of the reflect-mode pipeline of gojuno/mock (`mockgen/reflect.go`).

The Go source is shallowly embedded: pure string manipulation (the program
template, `path.Base`, `strings.Trim`) becomes Lean functions on `String` /
`List Char`; the effectful pipeline of `Reflect` (temp dir, file write,
toolchain calls, probe execution, deferred cleanup) becomes a function from
an explicit environment of external-call outcomes to a result together with
a trace of the effects performed.  `os.Exit` terminates the process without
running deferred functions, which the model reflects by a distinguished
`Outcome.exited` result whose trace omits the deferred events.
-/

namespace GomockReflect

/-- Modelled from the spec: the Intermediate Model's polymorphic `Type`
variant (the `mockgen/model` package is not under `src/`); one constructor
per kind, fields reduced to what the claims need. -/
inductive GoType where
  | named (pkgPath name : String)
  | pointer (t : GoType)
  | arrayOrSlice (t : GoType)
  | map (k v : GoType)
  | chan (t : GoType)
  | func
  | structLit
  | interfaceLit
  | predeclared (name : String)
deriving DecidableEq

/-- Modelled from the spec: a `Method` of the Intermediate Model. -/
structure Method where
  Name : String
  In : List GoType
  Out : List GoType
deriving DecidableEq

/-- Modelled from the spec: an `Interface` of the Intermediate Model. -/
structure Interface where
  Name : String
  Methods : List Method
deriving DecidableEq

/-- Modelled from the spec: a `Package` of the Intermediate Model
(`model.Package`: name plus ordered interfaces). -/
structure Package where
  Name : String
  Interfaces : List Interface
deriving DecidableEq

/-- Quoting of one character as Go's `fmt` `%q` verb does for the
printable-ASCII fragment relevant here (escape quote, backslash and the
common control characters). -/
def goQuoteChar (c : Char) : List Char :=
  if c = '"' then ['\\', '"']
  else if c = '\\' then ['\\', '\\']
  else if c = '\n' then ['\\', 'n']
  else if c = '\t' then ['\\', 't']
  else if c = '\r' then ['\\', 'r']
  else [c]

/-- Go's `fmt` `%q` verb on a string: a double-quoted Go string literal. -/
def goQuote (s : String) : String :=
  String.mk ('"' :: (s.data.map goQuoteChar).flatten ++ ['"'])

/-- Go's `path.Base`: the last element of a slash-separated path, after
stripping trailing slashes; `"."` for the empty path, `"/"` for all-slash
paths.  Used by the synthesized probe program (`path.Base` on the import
path) and, on Linux, identical to `filepath.Base` used for the temp dir. -/
def pathBase (p : String) : String :=
  if p = "" then "."
  else
    let stripped := ((p.data.reverse.dropWhile (fun c => c = '/')).reverse)
    let last := ((stripped.reverse.takeWhile (fun c => c ≠ '/')).reverse)
    if last = [] then "/" else String.mk last

/-- Go's `strings.Trim(s, "\n")`: remove leading and trailing newline
characters (as in `getGbInfo`). -/
def trimNewlines (s : String) : String :=
  String.mk (((s.data.dropWhile (fun c => c = '\n')).reverse.dropWhile
    (fun c => c = '\n')).reverse)

/-- Go's `filepath.Join` on two components, modelled without the final
`Clean` normalization (no claim depends on path cleaning). -/
def filepathJoin (a b : String) : String :=
  if a = "" then b else if b = "" then a else a ++ "/" ++ b

/-- The `reflectData` struct fed to the program template. -/
structure reflectData where
  ImportPath : String
  Symbols : List String

/-- Literal template text from the start of the template to just before the
`pkg_` import alias. -/
def progImports : String :=
  "\npackage main\n\nimport (\n\t\"encoding/gob\"\n\t\"fmt\"\n\t\"os\"\n\t\"path\"\n\t\"reflect\"\n\n\t\"github.com/juno-lab/mock/mockgen/model\"\n\n\t"

/-- Literal template text between the import block and the `range` over the
symbols. -/
def progMainOpen : String :=
  "\n)\n\nfunc main() \x7b\n\tits := []struct\x7b\n\t\tsym string\n\t\ttyp reflect.Type\n\t\x7d\x7b\n\t\t"

/-- The type-extraction entry emitted for one requested symbol inside the
template's `range` body. -/
def extractionEntry (s : String) : String :=
  "\x7b " ++ goQuote s ++ ", reflect.TypeOf((*pkg_." ++ s ++ ")(nil)).Elem()\x7d,"

/-- The full `range` body of the template for one symbol: the extraction
entry together with the literal whitespace around it. -/
def rangeBody (s : String) : String :=
  "\n\t\t" ++ extractionEntry s ++ "\n\t\t"

/-- Literal template text after the `range`, parameterized by the import
path (which reappears inside `path.Base(...)`). -/
def progTail (ip : String) : String :=
  "\n\t\x7d\n\tpkg := &model.Package\x7b\n\t\t// NOTE: This behaves contrary to documented behaviour if the\n\t\t// package name is not the final component of the import path.\n\t\t// The reflect package doesn\x27t expose the package name, though.\n\t\tName: path.Base(" ++ goQuote ip ++ "),\n\t\x7d\n\n\tfor _, it := range its \x7b\n\t\tintf, err := model.InterfaceFromInterfaceType(it.typ)\n\t\tif err != nil \x7b\n\t\t\tfmt.Fprintf(os.Stderr, \"Reflection: %v\\n\", err)\n\t\t\tos.Exit(1)\n\t\t\x7d\n\t\tintf.Name = it.sym\n\t\tpkg.Interfaces = append(pkg.Interfaces, intf)\n\t\x7d\n\n\tfmt.Println(\"\\nENCODED_PKG\")\n\n\tif err := gob.NewEncoder(os.Stdout).Encode(pkg); err != nil \x7b\n\t\tfmt.Fprintf(os.Stderr, \"gob encode: %v\\n\", err)\n\t\tos.Exit(1)\n\t\x7d\n\x7d\n"

/-- Sequential emission of the `range` action of `text/template`: the body
is rendered once per list element, in order. -/
def concatMap (f : String → String) : List String → String
  | [] => ""
  | s :: ss => f s ++ concatMap f ss

/-- `reflectProgram.Execute` on `reflectData`: the Go `text/template` is a
fixed interleaving of literal text with `{{printf "%q" .ImportPath}}`, the
`{{range .Symbols}}` body and `{{end}}`, so execution is this concatenation. -/
def reflectProgram (data : reflectData) : String :=
  progImports ++ "pkg_ " ++ goQuote data.ImportPath ++ progMainOpen ++
    concatMap rangeBody data.Symbols ++ progTail data.ImportPath

example : pathBase "sample/iface" = "iface" := by decide
example : pathBase "" = "." := by decide
example : pathBase "///" = "/" := by decide
example : pathBase "abc" = "abc" := by decide
example : goQuote "a\"b" = "\"a\\\"b\"" := by decide

/-! ## The output protocol decoder (lines 103-117 of `reflect.go`) -/

/-- The sentinel line compared against by the scan loop: the Go literal
`"ENCODED_PKG\n"`. -/
def sentinelLine : List Char := "ENCODED_PKG\n".data

/-- `bytes.Buffer.ReadString('\n')`: read up to and including the first
newline, returning `(data, remaining, eofFlag)`; if no newline is found the
whole remaining buffer is returned with the `io.EOF` flag set. -/
def readString : List Char → List Char × List Char × Bool
  | [] => ([], [], true)
  | c :: cs =>
    if c = '\n' then ([c], cs, false)
    else
      let r := readString cs
      (c :: r.1, r.2.1, r.2.2)

theorem readString_progress (buf : List Char)
    (h : (readString buf).2.2 = false) : (readString buf).2.1.length < buf.length := by
  induction buf with
  | nil => simp [readString] at h
  | cons c cs ih =>
    by_cases hc : c = '\n'
    · simp [readString, hc]
    · simp only [readString, if_neg hc] at h ⊢
      exact Nat.lt_succ_of_lt (ih h)

theorem readString_line (w : List Char) (hw : '\n' ∉ w) (rest : List Char) :
    readString (w ++ '\n' :: rest) = (w ++ ['\n'], rest, false) := by
  induction w with
  | nil => simp [readString]
  | cons a w ih =>
    have ha : a ≠ '\n' := fun h => hw (h ▸ List.mem_cons_self a w)
    have hw' : '\n' ∉ w := fun h => hw (List.mem_cons_of_mem a h)
    simp [readString, ha, ih hw']

theorem readString_noNewline (buf : List Char) (h : '\n' ∉ buf) :
    readString buf = (buf, [], true) := by
  induction buf with
  | nil => simp [readString]
  | cons a w ih =>
    have ha : a ≠ '\n' := fun hh => h (hh ▸ List.mem_cons_self a w)
    have hw' : '\n' ∉ w := fun hh => h (List.mem_cons_of_mem a hh)
    simp [readString, ha, ih hw']

/-- The scan loop of `Reflect`: read lines until one equals the sentinel
(returning the remaining bytes) or until `ReadString` reports `io.EOF`
(returning `none`, the protocol error). -/
def scanFrom (buf : List Char) : Option (List Char) :=
  if h : (readString buf).2.2 = true then none
  else if (readString buf).1 = sentinelLine then some (readString buf).2.1
  else scanFrom (readString buf).2.1
termination_by buf.length
decreasing_by
  exact readString_progress buf (Bool.not_eq_true _ ▸ h)

theorem scanFrom_eof (buf : List Char) (h : (readString buf).2.2 = true) :
    scanFrom buf = none := by
  rw [scanFrom]
  simp [h]

theorem scanFrom_found (buf : List Char) (h : (readString buf).2.2 = false)
    (hs : (readString buf).1 = sentinelLine) :
    scanFrom buf = some (readString buf).2.1 := by
  rw [scanFrom]
  simp [h, hs]

theorem scanFrom_next (buf : List Char) (h : (readString buf).2.2 = false)
    (hs : (readString buf).1 ≠ sentinelLine) :
    scanFrom buf = scanFrom (readString buf).2.1 := by
  rw [scanFrom]
  simp [h, hs]

/-- The errors `Reflect` can propagate, one per failing stage (Go error
values are opaque; the constructor records which call produced it). -/
inductive ReflectErr where
  | tempDirFail
  | renderFail
  | writeFail
  | gbInfoFail
  | buildFail
  | execFail
  | ioEOF
  | gobDecodeFail
deriving DecidableEq

/-- The `gob.NewDecoder(&stdout).Decode(&pkg)` step on the bytes left after
the sentinel, for a given decoding function (the gob codec itself is Go
standard library, passed in as a parameter). -/
def decodePayload (gobDecode : List Char → Option Package) (rest : List Char) :
    Except ReflectErr Package :=
  match gobDecode rest with
  | none => Except.error ReflectErr.gobDecodeFail
  | some pkg => Except.ok pkg

/-- Lines 103-117 of `Reflect`: scan the captured stdout for the sentinel
line, propagate the `ReadString` error if the stream ends first, otherwise
gob-decode the remaining bytes. -/
def decodeOutput (gobDecode : List Char → Option Package) (stdout : List Char) :
    Except ReflectErr Package :=
  match scanFrom stdout with
  | none => Except.error ReflectErr.ioEOF
  | some rest => decodePayload gobDecode rest

/-! ## The `Reflect` pipeline (lines 39-119 of `reflect.go`)

External calls (`ioutil.TempDir`, `template.Execute`, `ioutil.WriteFile`,
`gb info`, `gb build`, running the probe) are modelled by an environment
fixing each call's outcome; the effects performed are recorded in a trace.
Deferred cleanups (`os.RemoveAll(tmpDir)`, `os.Remove(progPath)`) run, in
LIFO order, on every path on which `Reflect` returns; `os.Exit(0)` in the
`prog_only` branch terminates the process without running them. -/

/-- The two reflect-mode flags, `*progOnly` and `*execOnly`. -/
structure Flags where
  progOnly : Bool
  execOnly : String

/-- Outcome of running an executable and capturing its stdout: a non-zero
exit (or start failure), or success with the captured stream. -/
inductive RunRes where
  | fail
  | out (stdout : String)

/-- Outcomes of the external calls `Reflect` makes, fixed per invocation. -/
structure Env where
  tempDirRes : Option String
  renderErr : Bool
  writeErr : Bool
  gbInfoRes : String → Option String
  buildErr : Bool
  runRes : String → RunRes

/-- Observable effects of one `Reflect` invocation. -/
inductive Ev where
  | tempDirCreate (dir : String)
  | removeAll (dir : String)
  | render (program : String)
  | writeFile (path : String)
  | gbInfoCall (param : String)
  | gbBuild (dir : String)
  | copyToStdout (program : String)
  | osExit (code : Nat)
  | removeFile (path : String)
  | runExec (path : String)
deriving DecidableEq

/-- How the build-mode block (lines 43-92) ends: an error return, the
`prog_only` process exit, or a resolved probe path together with the
cleanups still deferred. -/
inductive BuildOut where
  | err (e : ReflectErr)
  | exited
  | ok (progPath : String) (defers : List Ev)

/-- How a whole `Reflect` invocation ends: a normal return, or process
termination via `os.Exit`. -/
inductive Outcome where
  | ret (r : Except ReflectErr Package)
  | exited (code : Nat)

/-- `getGbInfo` (lines 121-131): run `gb info <param>`, capture stdout and
trim newlines from both ends; `none` models a failed `cmd.Run`. -/
def getGbInfo (env : Env) (param : String) : Option String :=
  match env.gbInfoRes param with
  | none => none
  | some raw => some (trimNewlines raw)

/-- The build-mode block of `Reflect` (lines 43-92): create the workspace,
render and write the probe source, query `gb` for project dir and binary
suffix, build, and resolve the probe path; on the `prog_only` switch, print
the program and `os.Exit(0)` (skipping the deferred cleanups). -/
def buildPhase (flags : Flags) (env : Env) (importPath : String)
    (symbols : List String) : BuildOut × List Ev :=
  match env.tempDirRes with
  | none => (BuildOut.err ReflectErr.tempDirFail, [])
  | some tmpDir =>
    if env.renderErr then
      (BuildOut.err ReflectErr.renderFail,
        [Ev.tempDirCreate tmpDir, Ev.removeAll tmpDir])
    else
      if flags.progOnly then
        (BuildOut.exited,
          [Ev.tempDirCreate tmpDir,
           Ev.render (reflectProgram ⟨importPath, symbols⟩),
           Ev.copyToStdout (reflectProgram ⟨importPath, symbols⟩),
           Ev.osExit 0])
      else
        if env.writeErr then
          (BuildOut.err ReflectErr.writeFail,
            [Ev.tempDirCreate tmpDir,
             Ev.render (reflectProgram ⟨importPath, symbols⟩),
             Ev.writeFile (filepathJoin tmpDir "prog.go"),
             Ev.removeAll tmpDir])
        else
          match getGbInfo env "GB_PROJECT_DIR" with
          | none =>
            (BuildOut.err ReflectErr.gbInfoFail,
              [Ev.tempDirCreate tmpDir,
               Ev.render (reflectProgram ⟨importPath, symbols⟩),
               Ev.writeFile (filepathJoin tmpDir "prog.go"),
               Ev.gbInfoCall "GB_PROJECT_DIR",
               Ev.removeAll tmpDir])
          | some gbProjectDir =>
            match getGbInfo env "GB_BIN_SUFFIX" with
            | none =>
              (BuildOut.err ReflectErr.gbInfoFail,
                [Ev.tempDirCreate tmpDir,
                 Ev.render (reflectProgram ⟨importPath, symbols⟩),
                 Ev.writeFile (filepathJoin tmpDir "prog.go"),
                 Ev.gbInfoCall "GB_PROJECT_DIR",
                 Ev.gbInfoCall "GB_BIN_SUFFIX",
                 Ev.removeAll tmpDir])
            | some gbBinSuffix =>
              if env.buildErr then
                (BuildOut.err ReflectErr.buildFail,
                  [Ev.tempDirCreate tmpDir,
                   Ev.render (reflectProgram ⟨importPath, symbols⟩),
                   Ev.writeFile (filepathJoin tmpDir "prog.go"),
                   Ev.gbInfoCall "GB_PROJECT_DIR",
                   Ev.gbInfoCall "GB_BIN_SUFFIX",
                   Ev.gbBuild tmpDir,
                   Ev.removeFile (filepathJoin (filepathJoin gbProjectDir "bin")
                     (pathBase tmpDir ++ gbBinSuffix)),
                   Ev.removeAll tmpDir])
              else
                (BuildOut.ok
                  (filepathJoin (filepathJoin gbProjectDir "bin")
                    (pathBase tmpDir ++ gbBinSuffix))
                  [Ev.removeFile (filepathJoin (filepathJoin gbProjectDir "bin")
                    (pathBase tmpDir ++ gbBinSuffix)),
                   Ev.removeAll tmpDir],
                  [Ev.tempDirCreate tmpDir,
                   Ev.render (reflectProgram ⟨importPath, symbols⟩),
                   Ev.writeFile (filepathJoin tmpDir "prog.go"),
                   Ev.gbInfoCall "GB_PROJECT_DIR",
                   Ev.gbInfoCall "GB_BIN_SUFFIX",
                   Ev.gbBuild tmpDir])

/-- Lines 94-118 of `Reflect`: run the resolved executable capturing its
stdout; a non-zero exit is returned as-is, otherwise the captured stream is
scanned and decoded. -/
def runAndDecode (env : Env) (gobDecode : List Char → Option Package)
    (progPath : String) : Except ReflectErr Package × List Ev :=
  match env.runRes progPath with
  | RunRes.fail => (Except.error ReflectErr.execFail, [Ev.runExec progPath])
  | RunRes.out stdout => (decodeOutput gobDecode stdout.data, [Ev.runExec progPath])

/-- `Reflect` (lines 39-119): with `exec_only` empty run the build-mode
block first, then run and decode the probe; deferred cleanups are appended
on the return paths that registered them. -/
def Reflect (flags : Flags) (env : Env) (gobDecode : List Char → Option Package)
    (importPath : String) (symbols : List String) : Outcome × List Ev :=
  if flags.execOnly = "" then
    match buildPhase flags env importPath symbols with
    | (BuildOut.err e, tr) => (Outcome.ret (Except.error e), tr)
    | (BuildOut.exited, tr) => (Outcome.exited 0, tr)
    | (BuildOut.ok progPath defers, tr) =>
      (Outcome.ret (runAndDecode env gobDecode progPath).1,
        tr ++ (runAndDecode env gobDecode progPath).2 ++ defers)
  else
    (Outcome.ret (runAndDecode env gobDecode flags.execOnly).1,
      (runAndDecode env gobDecode flags.execOnly).2)

/-! ## The synthesized probe program's behavior (template body, lines 156-188)

`model.InterfaceFromInterfaceType` lives in the external `model` package and
is passed in as a parameter, as is the gob encoder. -/

/-- The loop of the probe's `main`: for each symbol in order, obtain its
interface description, set its `Name` to the symbol, and collect in order;
any failure makes the probe `os.Exit(1)` (here `none`). -/
def probeLoop (symbols : List String)
    (interfaceFromInterfaceType : String → Option Interface) :
    Option (List Interface) :=
  match symbols with
  | [] => some []
  | s :: ss =>
    match interfaceFromInterfaceType s with
    | none => none
    | some intf =>
      match probeLoop ss interfaceFromInterfaceType with
      | none => none
      | some rest => some ({ intf with Name := s } :: rest)

/-- The probe's `main`: build a `Package` named `path.Base(importPath)`
holding the interfaces in symbol order, and emit `fmt.Println("\nENCODED_PKG")`
followed by the gob encoding of the package on stdout. -/
def probeMain (importPath : String) (symbols : List String)
    (interfaceFromInterfaceType : String → Option Interface)
    (gobEncode : Package → List Char) : Option (Package × List Char) :=
  match probeLoop symbols interfaceFromInterfaceType with
  | none => none
  | some ifaces =>
    some ({ Name := pathBase importPath, Interfaces := ifaces },
      ("\nENCODED_PKG\n").data ++
        gobEncode { Name := pathBase importPath, Interfaces := ifaces })

/-! ## Spec-side stream predicates and scan lemmas -/

/-- Spec-side view of "diagnostic output before the sentinel": a
concatenation of newline-terminated lines, none of which is the sentinel
line. -/
inductive PrefixLines : List Char → Prop where
  | nil : PrefixLines []
  | cons (w rest : List Char) : '\n' ∉ w → w ++ ['\n'] ≠ sentinelLine →
      PrefixLines rest → PrefixLines (w ++ '\n' :: rest)

/-- Spec-side view of "no line of the stream equals the sentinel before the
stream ends": newline-terminated non-sentinel lines followed by a final
(possibly empty) chunk with no newline. -/
inductive NoSentinel : List Char → Prop where
  | tail (t : List Char) : '\n' ∉ t → NoSentinel t
  | cons (w rest : List Char) : '\n' ∉ w → w ++ ['\n'] ≠ sentinelLine →
      NoSentinel rest → NoSentinel (w ++ '\n' :: rest)

/-- Spec-side "contains these fragments, disjointly, in this order". -/
inductive SeqContains : List Char → List (List Char) → Prop where
  | nil (s : List Char) : SeqContains s []
  | cons (a p rest : List Char) (ps : List (List Char)) : SeqContains rest ps →
      SeqContains (a ++ p ++ rest) (p :: ps)

theorem scanFrom_sentinel (rest : List Char) :
    scanFrom (sentinelLine ++ rest) = some rest := by
  have hw : ('\n' : Char) ∉ "ENCODED_PKG".data := by decide
  have hdec : sentinelLine ++ rest = "ENCODED_PKG".data ++ '\n' :: rest := by
    simp [sentinelLine]
  have hr := readString_line "ENCODED_PKG".data hw rest
  rw [hdec]
  rw [scanFrom_found]
  · rw [hr]
  · rw [hr]
  · rw [hr]
    simp [sentinelLine]

theorem scanFrom_skipLine (w rest : List Char) (hw : '\n' ∉ w)
    (hne : w ++ ['\n'] ≠ sentinelLine) :
    scanFrom (w ++ '\n' :: rest) = scanFrom rest := by
  have hr := readString_line w hw rest
  rw [scanFrom_next]
  · rw [hr]
  · rw [hr]
  · rw [hr]
    exact hne

/-- Scanning a stream made of non-sentinel diagnostic lines, the sentinel
line, and a payload yields exactly the payload. -/
theorem prefixLines_scan (pre : List Char) (h : PrefixLines pre)
    (rest : List Char) :
    scanFrom (pre ++ sentinelLine ++ rest) = some rest := by
  induction h with
  | nil => simpa using scanFrom_sentinel rest
  | cons w r hw hne _ ih =>
    have : (w ++ '\n' :: r) ++ sentinelLine ++ rest =
        w ++ '\n' :: (r ++ sentinelLine ++ rest) := by simp
    rw [this, scanFrom_skipLine w _ hw hne, ih]

/-- Scanning a stream with no sentinel line ends in the `io.EOF` protocol
error. -/
theorem noSentinel_scan (s : List Char) (h : NoSentinel s) :
    scanFrom s = none := by
  induction h with
  | tail t ht =>
    exact scanFrom_eof t (by rw [readString_noNewline t ht])
  | cons w r hw hne _ ih =>
    rw [scanFrom_skipLine w r hw hne, ih]

/-- Diagnostic lines followed by a sentinel-free remainder form a
sentinel-free stream. -/
theorem prefixLines_noSentinel (pre : List Char) (h : PrefixLines pre)
    (t : List Char) (ht : NoSentinel t) : NoSentinel (pre ++ t) := by
  induction h with
  | nil => simpa using ht
  | cons w r hw hne _ ih =>
    have : (w ++ '\n' :: r) ++ t = w ++ '\n' :: (r ++ t) := by simp
    rw [this]
    exact NoSentinel.cons w (r ++ t) hw hne ih

theorem seqContains_prepend (a xs : List Char) (ps : List (List Char))
    (h : SeqContains xs ps) : SeqContains (a ++ xs) ps := by
  cases h with
  | nil => exact SeqContains.nil _
  | cons b p rest ps' h' =>
    have : a ++ (b ++ p ++ rest) = (a ++ b) ++ p ++ rest := by simp
    rw [this]
    exact SeqContains.cons _ _ _ _ h'

/-- The expanded `range` body contains, in order, one extraction entry per
symbol. -/
theorem concatMap_entries (syms : List String) (tail : List Char) :
    SeqContains ((concatMap rangeBody syms).data ++ tail)
      (syms.map fun s => (extractionEntry s).data) := by
  induction syms generalizing tail with
  | nil => exact SeqContains.nil _
  | cons s ss ih =>
    have h2 : SeqContains ("\n\t\t".data ++ ((concatMap rangeBody ss).data ++ tail))
        (ss.map fun s => (extractionEntry s).data) :=
      seqContains_prepend _ _ _ (ih tail)
    have h3 := SeqContains.cons "\n\t\t".data (extractionEntry s).data
      ("\n\t\t".data ++ ((concatMap rangeBody ss).data ++ tail))
      (ss.map fun s => (extractionEntry s).data) h2
    have heq : (concatMap rangeBody (s :: ss)).data ++ tail =
        "\n\t\t".data ++ (extractionEntry s).data ++
          ("\n\t\t".data ++ ((concatMap rangeBody ss).data ++ tail)) := by
      simp [concatMap, rangeBody]
    rw [heq]
    simpa using h3

/-! ## Pipeline helper lemmas -/

/-- Recognizer for probe-execution events. -/
def isRunExec : Ev → Bool
  | Ev.runExec _ => true
  | _ => false

theorem runAndDecode_trace (env : Env) (g : List Char → Option Package)
    (p : String) : (runAndDecode env g p).2 = [Ev.runExec p] := by
  unfold runAndDecode
  cases env.runRes p <;> rfl

theorem reflect_execMode (flags : Flags) (env : Env)
    (g : List Char → Option Package) (ip : String) (syms : List String)
    (he : flags.execOnly ≠ "") :
    Reflect flags env g ip syms =
      (Outcome.ret (runAndDecode env g flags.execOnly).1,
        [Ev.runExec flags.execOnly]) := by
  unfold Reflect
  rw [if_neg he, runAndDecode_trace]

theorem reflect_buildMode (flags : Flags) (env : Env)
    (g : List Char → Option Package) (ip : String) (syms : List String)
    (he : flags.execOnly = "") :
    Reflect flags env g ip syms =
      match buildPhase flags env ip syms with
      | (BuildOut.err e, tr) => (Outcome.ret (Except.error e), tr)
      | (BuildOut.exited, tr) => (Outcome.exited 0, tr)
      | (BuildOut.ok pp ds, tr) =>
        (Outcome.ret (runAndDecode env g pp).1,
          tr ++ (runAndDecode env g pp).2 ++ ds) := by
  unfold Reflect
  rw [if_pos he]

theorem buildPhase_no_runExec (flags : Flags) (env : Env) (ip : String)
    (syms : List String) :
    (buildPhase flags env ip syms).2.countP isRunExec = 0 ∧
    (∀ pp ds, (buildPhase flags env ip syms).1 = BuildOut.ok pp ds →
      ds.countP isRunExec = 0) := by
  unfold buildPhase
  repeat' split
  all_goals simp [isRunExec]

theorem countP_zero_notMem (tr : List Ev) (h : tr.countP isRunExec = 0)
    (q : String) : Ev.runExec q ∉ tr := by
  intro hm
  have := List.countP_eq_zero.mp h _ hm
  simp [isRunExec] at this

theorem buildPhase_cleanup_err (flags : Flags) (env : Env) (ip : String)
    (syms : List String) (d : String) (e : ReflectErr) (tr : List Ev)
    (hd : env.tempDirRes = some d)
    (h : buildPhase flags env ip syms = (BuildOut.err e, tr)) :
    Ev.tempDirCreate d ∈ tr ∧ Ev.removeAll d ∈ tr := by
  unfold buildPhase at h
  rw [hd] at h
  repeat' split at h
  all_goals simp_all
  all_goals (obtain ⟨h1, h2⟩ := h)
  all_goals (subst h2)
  all_goals simp

theorem buildPhase_cleanup_ok (flags : Flags) (env : Env) (ip : String)
    (syms : List String) (d pp : String) (ds tr : List Ev)
    (hd : env.tempDirRes = some d)
    (h : buildPhase flags env ip syms = (BuildOut.ok pp ds, tr)) :
    Ev.tempDirCreate d ∈ tr ∧ Ev.removeAll d ∈ ds := by
  unfold buildPhase at h
  rw [hd] at h
  repeat' split at h
  all_goals simp_all
  all_goals (obtain ⟨⟨h1, h2⟩, h3⟩ := h)
  all_goals (subst h2)
  all_goals (subst h3)
  all_goals simp

/-! ## Claims -/

/-- Claim C1: for every captured probe output stream, the decoder in
`Reflect` scans line by line, discards every line preceding the first line
exactly equal to the sentinel `"ENCODED_PKG"` regardless of content or
count, and deserializes the remaining bytes after the sentinel line as one
`Package`, which `Reflect` returns. -/
theorem sentinel_scan_decodes_payload (pre rest : List Char)
    (g : List Char → Option Package) (h : PrefixLines pre) :
    scanFrom (pre ++ sentinelLine ++ rest) = some rest ∧
    (∀ pkg, g rest = some pkg →
      decodeOutput g (pre ++ sentinelLine ++ rest) = Except.ok pkg) ∧
    (∀ pkg (env : Env) (e ip : String) (syms : List String),
      g rest = some pkg → e ≠ "" →
      env.runRes e = RunRes.out (String.mk (pre ++ sentinelLine ++ rest)) →
      (Reflect ⟨false, e⟩ env g ip syms).1 = Outcome.ret (Except.ok pkg)) := by
  have hscan := prefixLines_scan pre h rest
  have hdec : ∀ pkg, g rest = some pkg →
      decodeOutput g (pre ++ sentinelLine ++ rest) = Except.ok pkg := by
    intro pkg hg
    unfold decodeOutput
    rw [hscan]
    simp [decodePayload, hg]
  refine ⟨hscan, hdec, ?_⟩
  intro pkg env e ip syms hg he hrun
  rw [reflect_execMode ⟨false, e⟩ env g ip syms he]
  unfold runAndDecode
  rw [hrun]
  exact congrArg Outcome.ret (hdec pkg hg)

/-- Stub gob decoder for the C1 witness: accepts exactly the payload
`['P', 'K', 'G']`. -/
def c1GobStub : List Char → Option Package := fun rest =>
  if rest = ['P', 'K', 'G'] then some { Name := "iface", Interfaces := [] }
  else none

/-- Witness for C1 at the spec's scenario: a `"noise\n"` diagnostic line,
the sentinel, then a payload. -/
theorem sentinel_scan_decodes_payload_witness :
    PrefixLines (['n', 'o', 'i', 's', 'e'] ++ '\n' :: []) ∧
    decodeOutput c1GobStub
        ((['n', 'o', 'i', 's', 'e'] ++ '\n' :: []) ++ sentinelLine ++ ['P', 'K', 'G']) =
      Except.ok { Name := "iface", Interfaces := [] } := by
  have hp : PrefixLines (['n', 'o', 'i', 's', 'e'] ++ '\n' :: []) :=
    PrefixLines.cons _ _ (by decide) (by decide) PrefixLines.nil
  exact ⟨hp,
    (sentinel_scan_decodes_payload _ _ c1GobStub hp).2.1 _ (by decide)⟩

/-- Counterexample to Claim C2: in build mode with `prog_only` set, the
workspace is created, the program is printed, and the process exits via
`os.Exit(0)`, which skips the deferred `os.RemoveAll`; the workspace
directory still exists when the invocation ends. -/
def envProgOnly : Env :=
  { tempDirRes := some "gomock_reflect_1", renderErr := false,
    writeErr := false, gbInfoRes := fun _ => some "", buildErr := false,
    runRes := fun _ => RunRes.fail }

/-- Counterexample for C2: the `prog_only` early exit leaves the created
workspace directory in place (no `removeAll` event ever happens). -/
theorem progOnly_exit_leaks_workspace :
    (Reflect ⟨true, ""⟩ envProgOnly (fun _ => none) "sample/iface" ["Fooer"]).1 =
      Outcome.exited 0 ∧
    Ev.tempDirCreate "gomock_reflect_1" ∈
      (Reflect ⟨true, ""⟩ envProgOnly (fun _ => none) "sample/iface" ["Fooer"]).2 ∧
    Ev.removeAll "gomock_reflect_1" ∉
      (Reflect ⟨true, ""⟩ envProgOnly (fun _ => none) "sample/iface" ["Fooer"]).2 := by
  refine ⟨rfl, by decide, by decide⟩

/-- Claim C2 as amended: in build mode, on every path on which `Reflect`
itself returns (success and every render/write/toolchain/build/execute/
decode failure), the created workspace directory has been removed; the
`prog_only` path instead terminates the process via `os.Exit(0)`, skipping
the deferred removal. -/
theorem workspace_removed_on_return (flags : Flags) (env : Env)
    (g : List Char → Option Package) (ip : String) (syms : List String)
    (d : String) (r : Except ReflectErr Package)
    (he : flags.execOnly = "") (hd : env.tempDirRes = some d)
    (hret : (Reflect flags env g ip syms).1 = Outcome.ret r) :
    Ev.tempDirCreate d ∈ (Reflect flags env g ip syms).2 ∧
    Ev.removeAll d ∈ (Reflect flags env g ip syms).2 := by
  rw [reflect_buildMode flags env g ip syms he] at hret ⊢
  rcases hbp : buildPhase flags env ip syms with ⟨bo, tr⟩
  rw [hbp] at hret
  cases bo with
  | err e =>
    exact buildPhase_cleanup_err flags env ip syms d e tr hd hbp
  | exited => exact Outcome.noConfusion hret
  | ok pp ds =>
    have hcl := buildPhase_cleanup_ok flags env ip syms d pp ds tr hd hbp
    refine ⟨?_, ?_⟩
    · show Ev.tempDirCreate d ∈ tr ++ (runAndDecode env g pp).2 ++ ds
      simp only [List.mem_append]
      exact Or.inl (Or.inl hcl.1)
    · show Ev.removeAll d ∈ tr ++ (runAndDecode env g pp).2 ++ ds
      simp only [List.mem_append]
      exact Or.inr hcl.2

/-- Environment for the C2-amended witness: the render step fails. -/
def envRenderFail : Env :=
  { tempDirRes := some "gomock_reflect_1", renderErr := true,
    writeErr := false, gbInfoRes := fun _ => none, buildErr := false,
    runRes := fun _ => RunRes.fail }

/-- Witness for the amended C2 on a render-failure return path. -/
theorem workspace_removed_on_return_witness :
    Ev.tempDirCreate "gomock_reflect_1" ∈
      (Reflect ⟨false, ""⟩ envRenderFail (fun _ => none) "p" []).2 ∧
    Ev.removeAll "gomock_reflect_1" ∈
      (Reflect ⟨false, ""⟩ envRenderFail (fun _ => none) "p" []).2 :=
  workspace_removed_on_return ⟨false, ""⟩ envRenderFail (fun _ => none) "p" []
    "gomock_reflect_1" (Except.error ReflectErr.renderFail) rfl rfl rfl

/-- Claim C3: for every captured stream in which no line equals the
sentinel before stream end, the decoder terminates with the `io.EOF`
protocol error, never consulting the payload decoder, and that error is
distinct from the malformed-payload decode error.  (Termination is inherent:
`decodeOutput` is a total function.) -/
theorem missing_sentinel_protocol_error (s : List Char) (h : NoSentinel s) :
    (∀ g, decodeOutput g s = Except.error ReflectErr.ioEOF) ∧
    ReflectErr.ioEOF ≠ ReflectErr.gobDecodeFail := by
  refine ⟨?_, by decide⟩
  intro g
  unfold decodeOutput
  rw [noSentinel_scan s h]

/-- Witness for C3: a terminated non-sentinel line followed by an
unterminated chunk. -/
theorem missing_sentinel_protocol_error_witness :
    NoSentinel (['a'] ++ '\n' :: ['b']) ∧
    decodeOutput (fun _ => none) (['a'] ++ '\n' :: ['b']) =
      Except.error ReflectErr.ioEOF := by
  have h : NoSentinel (['a'] ++ '\n' :: ['b']) :=
    NoSentinel.cons ['a'] ['b'] (by decide) (by decide)
      (NoSentinel.tail ['b'] (by decide))
  exact ⟨h, (missing_sentinel_protocol_error _ h).1 (fun _ => none)⟩

/-- Claim C4: with a non-empty `exec_only` path the whole build-mode block
is skipped — no workspace, no render, no write, no `gb info` query, no
`gb build` — and the supplied path is the executable that is run (the trace
is exactly one probe execution at that path). -/
theorem execOnly_skips_build_pipeline (flags : Flags) (env : Env)
    (g : List Char → Option Package) (ip : String) (syms : List String)
    (he : flags.execOnly ≠ "") :
    (Reflect flags env g ip syms).2 = [Ev.runExec flags.execOnly] ∧
    (∀ d, Ev.tempDirCreate d ∉ (Reflect flags env g ip syms).2) ∧
    (∀ p, Ev.render p ∉ (Reflect flags env g ip syms).2) ∧
    (∀ p, Ev.writeFile p ∉ (Reflect flags env g ip syms).2) ∧
    (∀ q, Ev.gbInfoCall q ∉ (Reflect flags env g ip syms).2) ∧
    (∀ d, Ev.gbBuild d ∉ (Reflect flags env g ip syms).2) := by
  rw [reflect_execMode flags env g ip syms he]
  simp

/-- Environment in which every external call fails. -/
def envAllFail : Env :=
  { tempDirRes := none, renderErr := true, writeErr := true,
    gbInfoRes := fun _ => none, buildErr := true,
    runRes := fun _ => RunRes.fail }

/-- Witness for C4 at a concrete pre-built probe path. -/
theorem execOnly_skips_build_pipeline_witness :
    ("./probe" : String) ≠ "" ∧
    (Reflect ⟨false, "./probe"⟩ envAllFail (fun _ => none) "sample/iface"
      ["Fooer"]).2 = [Ev.runExec "./probe"] :=
  ⟨by decide,
    (execOnly_skips_build_pipeline ⟨false, "./probe"⟩ envAllFail (fun _ => none)
      "sample/iface" ["Fooer"] (by decide)).1⟩

/-- Claim C5: whenever the probe executable's run fails (non-zero exit),
`Reflect` returns the execution error, runs the probe exactly once (no
retry), and never invokes the decoder — the result is the same for every
payload decoder. -/
theorem probe_failure_fatal_no_decode (flags : Flags) (env : Env)
    (g : List Char → Option Package) (ip : String) (syms : List String)
    (p : String) (hr : env.runRes p = RunRes.fail)
    (hm : Ev.runExec p ∈ (Reflect flags env g ip syms).2) :
    (Reflect flags env g ip syms).1 =
      Outcome.ret (Except.error ReflectErr.execFail) ∧
    (Reflect flags env g ip syms).2.countP isRunExec = 1 ∧
    (∀ g', Reflect flags env g' ip syms = Reflect flags env g ip syms) := by
  by_cases he : flags.execOnly = ""
  · rw [reflect_buildMode flags env g ip syms he] at hm ⊢
    rcases hbp : buildPhase flags env ip syms with ⟨bo, tr⟩
    rw [hbp] at hm
    have hnr := buildPhase_no_runExec flags env ip syms
    rw [hbp] at hnr
    cases bo with
    | err e =>
      exact absurd hm (countP_zero_notMem tr hnr.1 p)
    | exited =>
      exact absurd hm (countP_zero_notMem tr hnr.1 p)
    | ok pp ds =>
      have hds : ds.countP isRunExec = 0 := hnr.2 pp ds rfl
      have hm' : Ev.runExec p ∈ tr ++ (runAndDecode env g pp).2 ++ ds := hm
      rw [runAndDecode_trace] at hm'
      simp only [List.mem_append, List.mem_singleton] at hm'
      have hpp : p = pp := by
        rcases hm' with (hin | heq) | hin
        · exact absurd hin (countP_zero_notMem tr hnr.1 p)
        · exact (Ev.runExec.injEq p pp).mp heq
        · exact absurd hin (countP_zero_notMem ds hds p)
      subst hpp
      have hrad : ∀ g'', runAndDecode env g'' p =
          (Except.error ReflectErr.execFail, [Ev.runExec p]) := by
        intro g''
        unfold runAndDecode
        rw [hr]
      refine ⟨?_, ?_, ?_⟩
      · show (Outcome.ret (runAndDecode env g p).1, _).1 = _
        rw [hrad g]
      · show (tr ++ (runAndDecode env g p).2 ++ ds).countP isRunExec = 1
        rw [hrad g]
        simp [List.countP_append, hnr.1, hds, isRunExec]
      · intro g'
        rw [reflect_buildMode flags env g' ip syms he, hbp]
        show (Outcome.ret (runAndDecode env g' p).1,
            tr ++ (runAndDecode env g' p).2 ++ ds) =
          (Outcome.ret (runAndDecode env g p).1,
            tr ++ (runAndDecode env g p).2 ++ ds)
        rw [hrad g', hrad g]
  · rw [reflect_execMode flags env g ip syms he] at hm ⊢
    simp only [List.mem_singleton] at hm
    have hpp : p = flags.execOnly := (Ev.runExec.injEq _ _).mp hm
    subst hpp
    have hrad : ∀ g'', runAndDecode env g'' flags.execOnly =
        (Except.error ReflectErr.execFail, [Ev.runExec flags.execOnly]) := by
      intro g''
      unfold runAndDecode
      rw [hr]
    refine ⟨?_, ?_, ?_⟩
    · show (Outcome.ret (runAndDecode env g flags.execOnly).1,
        [Ev.runExec flags.execOnly]).1 = _
      rw [hrad g]
    · simp [isRunExec]
    · intro g'
      rw [reflect_execMode flags env g' ip syms he, hrad g', hrad g]

/-- Witness for C5: a failing probe in pre-built mode. -/
theorem probe_failure_fatal_no_decode_witness :
    envAllFail.runRes "./probe" = RunRes.fail ∧
    Ev.runExec "./probe" ∈
      (Reflect ⟨false, "./probe"⟩ envAllFail (fun _ => none) "p" []).2 ∧
    (Reflect ⟨false, "./probe"⟩ envAllFail (fun _ => none) "p" []).1 =
      Outcome.ret (Except.error ReflectErr.execFail) := by
  refine ⟨rfl, by decide, ?_⟩
  exact (probe_failure_fatal_no_decode ⟨false, "./probe"⟩ envAllFail
    (fun _ => none) "p" [] "./probe" rfl (by decide)).1

/-- Claim C6: synthesizing the probe program source from identical
(module identifier, symbol list) inputs yields byte-identical source text —
`reflectProgram.Execute` is a pure function of the `reflectData`. -/
theorem reflectProgram_deterministic (ip1 ip2 : String)
    (s1 s2 : List String) (h1 : ip1 = ip2) (h2 : s1 = s2) :
    reflectProgram ⟨ip1, s1⟩ = reflectProgram ⟨ip2, s2⟩ := by
  rw [h1, h2]

/-- Witness for C6 at the spec's scenario inputs. -/
theorem reflectProgram_deterministic_witness :
    reflectProgram ⟨"sample/iface", ["Fooer", "Barer"]⟩ =
      reflectProgram ⟨"sample/iface", ["Fooer", "Barer"]⟩ :=
  reflectProgram_deterministic "sample/iface" "sample/iface"
    ["Fooer", "Barer"] ["Fooer", "Barer"] rfl rfl

/-- Claim C7: for every non-empty symbol list the synthesized source
imports the target module under the fixed alias `pkg_` (the fragment
`"pkg_ "` followed by the quoted module identifier occurs in the source)
and contains one type-extraction entry per requested symbol, disjointly and
in input order. -/
theorem program_contains_entries_in_order (ip : String)
    (syms : List String) (h : syms ≠ []) :
    (∃ u v, u ++ ("pkg_ " ++ goQuote ip).data ++ v =
      (reflectProgram ⟨ip, syms⟩).data) ∧
    SeqContains (reflectProgram ⟨ip, syms⟩).data
      (syms.map fun s => (extractionEntry s).data) := by
  constructor
  · refine ⟨progImports.data,
      (progMainOpen ++ concatMap rangeBody syms ++ progTail ip).data, ?_⟩
    simp [reflectProgram, List.append_assoc]
  · have hsc := seqContains_prepend
      (progImports ++ "pkg_ " ++ goQuote ip ++ progMainOpen).data
      ((concatMap rangeBody syms).data ++ (progTail ip).data)
      (syms.map fun s => (extractionEntry s).data)
      (concatMap_entries syms (progTail ip).data)
    have heq : (reflectProgram ⟨ip, syms⟩).data =
        (progImports ++ "pkg_ " ++ goQuote ip ++ progMainOpen).data ++
          ((concatMap rangeBody syms).data ++ (progTail ip).data) := by
      simp [reflectProgram, List.append_assoc]
    rw [heq]
    exact hsc

/-- Witness for C7 at the spec's scenario: module `"sample/iface"`,
symbols `["Fooer", "Barer"]`. -/
theorem program_contains_entries_in_order_witness :
    (["Fooer", "Barer"] : List String) ≠ [] ∧
    SeqContains (reflectProgram ⟨"sample/iface", ["Fooer", "Barer"]⟩).data
      (["Fooer", "Barer"].map fun s => (extractionEntry s).data) :=
  ⟨by decide,
    (program_contains_entries_in_order "sample/iface" ["Fooer", "Barer"]
      (by decide)).2⟩

/-- Claim C8: whatever interfaces the probe resolves, the `Package` it
constructs is named `path.Base` of the module identifier — the last path
component, even when the module's declared package name differs (the
documented deviation). -/
theorem package_name_is_pathBase (ip : String) (syms : List String)
    (f : String → Option Interface) (enc : Package → List Char)
    (pkg : Package) (out : List Char)
    (h : probeMain ip syms f enc = some (pkg, out)) :
    pkg.Name = pathBase ip := by
  unfold probeMain at h
  cases hl : probeLoop syms f with
  | none => rw [hl] at h; exact Option.noConfusion h
  | some ifaces =>
    rw [hl] at h
    simp only [Option.some.injEq, Prod.mk.injEq] at h
    rw [← h.1]

/-- Witness for C8: probing `"sample/iface"` for `"Fooer"` yields a package
named `"iface"`. -/
theorem package_name_is_pathBase_witness :
    probeMain "sample/iface" ["Fooer"]
        (fun s => some { Name := s, Methods := [] }) (fun _ => []) =
      some ({ Name := "iface",
              Interfaces := [{ Name := "Fooer", Methods := [] }] },
            ("\nENCODED_PKG\n").data) ∧
    ({ Name := "iface",
       Interfaces := [{ Name := "Fooer", Methods := [] }] } : Package).Name =
      pathBase "sample/iface" := by
  have hp : probeMain "sample/iface" ["Fooer"]
      (fun s => some { Name := s, Methods := [] }) (fun _ => []) =
      some ({ Name := "iface",
              Interfaces := [{ Name := "Fooer", Methods := [] }] },
            ("\nENCODED_PKG\n").data) := by decide
  exact ⟨hp, package_name_is_pathBase "sample/iface" ["Fooer"]
    (fun s => some { Name := s, Methods := [] }) (fun _ => []) _ _ hp⟩

/-- Claim C9: with both `exec_only` non-empty and `prog_only` set, the
`prog_only` switch has no effect: the invocation behaves exactly as with
`prog_only` unset, nothing is printed, no early process exit happens, and
the supplied executable is run. -/
theorem progOnly_ignored_with_execOnly (e : String) (env : Env)
    (g : List Char → Option Package) (ip : String) (syms : List String)
    (he : e ≠ "") :
    Reflect ⟨true, e⟩ env g ip syms = Reflect ⟨false, e⟩ env g ip syms ∧
    (∀ p, Ev.copyToStdout p ∉ (Reflect ⟨true, e⟩ env g ip syms).2) ∧
    (∀ c, Ev.osExit c ∉ (Reflect ⟨true, e⟩ env g ip syms).2) ∧
    (∃ r, (Reflect ⟨true, e⟩ env g ip syms).1 = Outcome.ret r) ∧
    Ev.runExec e ∈ (Reflect ⟨true, e⟩ env g ip syms).2 := by
  rw [reflect_execMode ⟨true, e⟩ env g ip syms he,
    reflect_execMode ⟨false, e⟩ env g ip syms he]
  simp

/-- Witness for C9 at a concrete probe path. -/
theorem progOnly_ignored_with_execOnly_witness :
    ("./probe" : String) ≠ "" ∧
    Reflect ⟨true, "./probe"⟩ envAllFail (fun _ => none) "p" [] =
      Reflect ⟨false, "./probe"⟩ envAllFail (fun _ => none) "p" [] ∧
    Ev.runExec "./probe" ∈
      (Reflect ⟨true, "./probe"⟩ envAllFail (fun _ => none) "p" []).2 := by
  have h := progOnly_ignored_with_execOnly "./probe" envAllFail
    (fun _ => none) "p" [] (by decide)
  exact ⟨by decide, h.1, h.2.2.2.2⟩

/-- Claim C10: if the captured output ends with the bytes `"ENCODED_PKG"`
as its final line without a terminating newline (after any number of
non-sentinel diagnostic lines), the decoder does not match it as the
sentinel: the stream-end error is returned for every payload decoder, and
no deserialization happens. -/
theorem unterminated_sentinel_not_matched (pre : List Char)
    (h : PrefixLines pre) :
    ∀ g, decodeOutput g (pre ++ "ENCODED_PKG".data) =
      Except.error ReflectErr.ioEOF := by
  intro g
  unfold decodeOutput
  rw [noSentinel_scan _ (prefixLines_noSentinel pre h _
    (NoSentinel.tail "ENCODED_PKG".data (by decide)))]

/-- Witness for C10: one diagnostic line, then the unterminated sentinel
bytes. -/
theorem unterminated_sentinel_not_matched_witness :
    PrefixLines (['x'] ++ '\n' :: []) ∧
    decodeOutput (fun _ => none) ((['x'] ++ '\n' :: []) ++ "ENCODED_PKG".data) =
      Except.error ReflectErr.ioEOF := by
  have h : PrefixLines (['x'] ++ '\n' :: []) :=
    PrefixLines.cons _ _ (by decide) (by decide) PrefixLines.nil
  exact ⟨h, unterminated_sentinel_not_matched _ h (fun _ => none)⟩

end GomockReflect
